import Mathlib

/-!
BlindAid orchestration core — verification development.

Shallow embedding of the BlindAid mode-controller orchestration layer
(`blindaid/controller.py`, `blindaid/core/audio.py`,
`blindaid/modes/guardian/guardian_mode.py`, `blindaid/modes/ocr/reading_mode.py`,
`blindaid/modes/people/people_mode.py`).

Modelling conventions:
* wall-clock timestamps (`time.time()`) are rationals (`Time := Rat`);
* external collaborators (PaddleOCR, the depth estimator, the YOLO face
  detector + face matcher, motion detection over raw pixels) are oracles:
  each frame input carries the value the collaborator would return for that
  frame, exactly in the shape the orchestration code consumes it;
* Python exceptions that the code catches are modelled by totality: the
  Lean function simply takes the `except` branch's effect; exceptions that
  the code *raises* (e.g. `KeyError` in `_get_mode`) are modelled as `none`
  results that leave the state unchanged;
* fields that the quoted code never reads (e.g. `ReadingMode.info_lines`,
  `prev_gray_frame`, pygame handles) are omitted; OCR bounding-box polygons
  are used only for drawing and are likewise omitted.
-/

namespace BlindAid

/-- Wall-clock time in seconds, as returned by `time.time()`. -/
abbrev Time := Rat

/-- Model of Python's `sep.join(parts)`: empty list gives `""`, a single
element is returned as-is, otherwise elements are interleaved with `sep`. -/
def pyJoin (sep : String) : List String → String
  | [] => ""
  | [a] => a
  | a :: b :: rest => a ++ sep ++ pyJoin sep (b :: rest)

/-! ## Reading mode (`blindaid/modes/ocr/reading_mode.py`) -/

/-- State of a `ReadingMode` instance. `ocr_available` models `self.ocr is
not None`; the boxes of `last_text_data` entries are drawing-only and
dropped, keeping `(text, score)` pairs. -/
structure ReadingState where
  ocr_available : Bool
  ocr_failed : Bool
  frame_count : Nat
  skip : Nat
  cooldown : Time
  confidence_threshold : Rat
  last_spoken : Time
  last_text : String
  stable_text_count : Nat
  last_text_data : List (String × Rat)
  audio_enabled : Bool
deriving DecidableEq

/-- Model of `ReadingMode.__init__` with the configured constants
(`OCR_FRAME_SKIP = 4`, `OCR_COOLDOWN_SECONDS = 5`,
`OCR_CONFIDENCE_THRESHOLD = 0.9`). -/
def readingInit (audio : Bool) : ReadingState :=
  { ocr_available := false
    ocr_failed := false
    frame_count := 0
    skip := 4
    cooldown := 5
    confidence_threshold := 9/10
    last_spoken := 0
    last_text := ""
    stable_text_count := 0
    last_text_data := []
    audio_enabled := audio }

/-- Per-frame oracle input for the reading mode: the frame time, whether a
`PaddleOCR(...)` construction would succeed if attempted on this frame, and
the parsed `(text, score)` lines the engine would return for this frame. -/
structure RFrameInput where
  now : Time
  ocr_init_ok : Bool
  ocr_lines : List (String × Rat)

/-- Model of `ReadingMode._ensure_ocr`: cached engine or cached failure short-circuit;
otherwise a construction attempt is made whose outcome is the oracle
`initOk`. Returns (new state, engine available, construction attempted). -/
def ensureOcr (s : ReadingState) (initOk : Bool) : ReadingState × Bool × Bool :=
  if s.ocr_available ∨ s.ocr_failed then (s, s.ocr_available, false)
  else if initOk then ({ s with ocr_available := true }, true, true)
  else ({ s with ocr_failed := true }, false, true)

/-- First half of `ReadingMode.process_frame` (frame counting, the
every-(skip+1)th-frame OCR run updating `last_text_data`, and the
skipped-frame unavailability line). Returns (state, info lines so far,
whether an engine construction was attempted). -/
def ocrPhase (s : ReadingState) (inp : RFrameInput) : ReadingState × List String × Bool :=
  let fc := s.frame_count + 1
  if fc % (s.skip + 1) = 0 then
    let r := ensureOcr s inp.ocr_init_ok
    ({ r.1 with frame_count := fc
                last_text_data := if r.2.1 then inp.ocr_lines else [] }, [], r.2.2)
  else if s.last_text_data = [] ∧ s.ocr_failed then
    ({ s with frame_count := fc }, ["OCR engine unavailable - see logs"], false)
  else
    ({ s with frame_count := fc }, [], false)

/-- Second half of `ReadingMode.process_frame`: the
stability + confidence + cooldown speak gate over `last_text_data`, plus
the no-text / unavailable status lines. Returns (state, info lines,
speech). -/
def gatePhase (s : ReadingState) (now : Time) : ReadingState × List String × List String :=
  if s.last_text_data = [] then
    (s, [if s.ocr_failed then "OCR engine unavailable - check PaddleOCR install"
         else "No text detected - show printed text to the camera"], [])
  else
    let texts := (s.last_text_data.filter (fun p => p.1 ≠ "")).map Prod.fst
    let infoText := pyJoin " " texts
    if infoText = "" then (s, [], [])
    else
      let highConf := (s.last_text_data.filter (fun p => s.confidence_threshold ≤ p.2)).map Prod.fst
      let s1 : ReadingState := if infoText = s.last_text
                then { s with stable_text_count := s.stable_text_count + 1 }
                else { s with stable_text_count := 0, last_text := infoText }
      if s1.audio_enabled = true ∧ highConf ≠ [] ∧ 2 ≤ s1.stable_text_count
          ∧ s1.cooldown < now - s1.last_spoken
      then ({ s1 with last_spoken := now }, [infoText], [pyJoin " " highConf])
      else (s1, [infoText], [])

/-- Output of one `ReadingMode.process_frame` call: status lines, speech
strings, and whether an OCR engine construction was attempted during it. -/
structure RFrameOut where
  info : List String
  speech : List String
  attempted : Bool
deriving DecidableEq

/-- Model of `ReadingMode.process_frame` (drawing on the returned frame omitted). -/
def processFrameR (s : ReadingState) (inp : RFrameInput) : ReadingState × RFrameOut :=
  let o := ocrPhase s inp
  let g := gatePhase o.1 inp.now
  (g.1, { info := o.2.1 ++ g.2.1, speech := g.2.2, attempted := o.2.2 })

/-- Run the reading mode over a list of frames, collecting per-frame
outputs in order. -/
def runReading : ReadingState → List RFrameInput → ReadingState × List RFrameOut
  | s, [] => (s, [])
  | s, i :: rest =>
    let r := processFrameR s i
    let next := runReading r.1 rest
    (next.1, r.2 :: next.2)

/-! ## Guardian mode (`blindaid/modes/guardian/guardian_mode.py`) -/

/-- State of a `GuardianMode` instance. `state_active` models
`current_state == STATE_ACTIVE`; `prev_gray_frame` and the motion pixel
arithmetic are collaborator territory (the per-frame motion verdict is an
oracle input). -/
structure GuardianState where
  state_active : Bool
  frame_counter : Nat
  last_motion_time : Time
  idle_timeout : Time
  last_warning_time : Time
  warning_cooldown : Time
deriving DecidableEq

/-- Model of `GuardianMode.__init__` (constructed at wall-clock time `t0`, which
starts `last_motion_time` at `time.time()`; `last_warning_time = 0.0`,
`warning_cooldown = 2.0`, `idle_timeout = 3.0`). -/
def guardianInit (t0 : Time) : GuardianState :=
  { state_active := false
    frame_counter := 0
    last_motion_time := t0
    idle_timeout := 3
    last_warning_time := 0
    warning_cooldown := 2 }

/-- Per-frame oracle input for the guardian mode: the frame time, the
motion-detection verdict for this frame, and the depth result — `none`
models `compute_depth` raising, `some (roiSize, closePixels)` gives
`roi.size` and `np.sum(roi > 0.75)` for the center-bottom ROI. -/
structure GFrameInput where
  now : Time
  is_moving : Bool
  depth : Option (Nat × Nat)

/-- Motion state update of `GuardianMode.process_frame` (step 1): motion
forces the active state; an active state with no motion for longer than
`idle_timeout` falls back to idle. -/
def motionActive (s : GuardianState) (inp : GFrameInput) : Bool :=
  if inp.is_moving then true
  else if s.state_active = true ∧ s.idle_timeout < inp.now - s.last_motion_time then false
  else s.state_active

/-- The `last_motion_time` update of `GuardianMode.process_frame` (step 1). -/
def motionTime (s : GuardianState) (inp : GFrameInput) : Time :=
  if inp.is_moving then inp.now else s.last_motion_time

/-- The `"State: ..."` status line. -/
def guardianStateLine (active : Bool) : String :=
  if active then "State: Walking (Active)" else "State: Sitting (Idle)"

/-- Model of `GuardianMode.process_frame` (frame drawing omitted): increments the
frame counter, updates the motion state, runs the depth check every
`interval`-th frame (30 active / 10 idle), and emits the `"Stop"` warning
only when more than 10% of a non-empty ROI is near and the cooldown since
the last warning has elapsed. -/
def processFrameG (s : GuardianState) (inp : GFrameInput) : GuardianState × List String × List String :=
  let active := motionActive s inp
  let s1 : GuardianState :=
    { s with frame_counter := s.frame_counter + 1
             state_active := active
             last_motion_time := motionTime s inp }
  let interval : Nat := if active then 30 else 10
  if s1.frame_counter % interval = 0 then
    match inp.depth with
    | none => (s1, ["Depth Error", guardianStateLine active], [])
    | some d =>
      if 0 < d.1 then
        if (1 : Rat)/10 < (d.2 : Rat) / (d.1 : Rat) then
          if s1.warning_cooldown < inp.now - s1.last_warning_time then
            ({ s1 with last_warning_time := inp.now }, [guardianStateLine active], ["Stop"])
          else (s1, [guardianStateLine active], [])
        else (s1, [guardianStateLine active], [])
      else (s1, [guardianStateLine active], [])
  else (s1, [guardianStateLine active], [])

/-- Model of `GuardianMode.on_enter`: resets the frame counter and the motion state
to idle, and nothing else. -/
def guardianOnEnter (s : GuardianState) : GuardianState :=
  { s with frame_counter := 0, state_active := false }

/-! ## Emission times and cooldown spacing -/

/-- Times of the frames on which a mode emitted speech, for a generic step
function and emission predicate. -/
def emissionTimes {σ ι : Type} (step : σ → ι → σ) (emits : σ → ι → Bool) (tm : ι → Time) :
    σ → List ι → List Time
  | _, [] => []
  | s, i :: rest =>
    if emits s i then tm i :: emissionTimes step emits tm (step s i) rest
    else emissionTimes step emits tm (step s i) rest

/-- Whether one `GuardianMode.process_frame` call emits speech. -/
def guardianEmits (s : GuardianState) (i : GFrameInput) : Bool :=
  !((processFrameG s i).2.2.isEmpty)

/-- The times at which a guardian-mode run over a frame sequence speaks. -/
def guardianEmissions (s : GuardianState) (l : List GFrameInput) : List Time :=
  emissionTimes (fun s i => (processFrameG s i).1) guardianEmits GFrameInput.now s l

/-- Whether one `ReadingMode.process_frame` call emits speech. -/
def readingEmits (s : ReadingState) (i : RFrameInput) : Bool :=
  !((processFrameR s i).2.speech.isEmpty)

/-- The times at which a reading-mode run over a frame sequence speaks. -/
def readingEmissions (s : ReadingState) (l : List RFrameInput) : List Time :=
  emissionTimes (fun s i => (processFrameR s i).1) readingEmits RFrameInput.now s l

/-- Frame inputs for the C1 counterexample: ten frames 0.1 s apart starting
at t = 100.1, audio enabled, the OCR collaborator returning the single line
`("EXIT", 0.97)` (above the 0.9 threshold) whenever invoked. With
`OCR_FRAME_SKIP = 4` the processed frames are the 5th and the 10th. -/
def c1CexInputs : List RFrameInput :=
  [{ now := 1001/10, ocr_init_ok := true, ocr_lines := [("EXIT", 97/100)] },
   { now := 1002/10, ocr_init_ok := true, ocr_lines := [("EXIT", 97/100)] },
   { now := 1003/10, ocr_init_ok := true, ocr_lines := [("EXIT", 97/100)] },
   { now := 1004/10, ocr_init_ok := true, ocr_lines := [("EXIT", 97/100)] },
   { now := 1005/10, ocr_init_ok := true, ocr_lines := [("EXIT", 97/100)] },
   { now := 1006/10, ocr_init_ok := true, ocr_lines := [("EXIT", 97/100)] },
   { now := 1007/10, ocr_init_ok := true, ocr_lines := [("EXIT", 97/100)] },
   { now := 1008/10, ocr_init_ok := true, ocr_lines := [("EXIT", 97/100)] },
   { now := 1009/10, ocr_init_ok := true, ocr_lines := [("EXIT", 97/100)] },
   { now := 1010/10, ocr_init_ok := true, ocr_lines := [("EXIT", 97/100)] }]

/-! ## People mode (`blindaid/modes/people/people_mode.py`) -/

/-- State of a `PeopleMode` instance. `loaded` models `self._loaded` /
`self.face_detector` being present (the detector-constructed-but-gallery-
failed in-between state is not distinguished: the claims do not touch it);
the Python `set` of seen identities is an insertion-ordered
duplicate-free list. -/
structure PeopleState where
  start_time : Time
  duration : Time
  finished : Bool
  loaded : Bool
  detected_people : List String
deriving DecidableEq

/-- Model of `PeopleMode.__init__` (`duration = 5.0`). -/
def peopleInit : PeopleState :=
  { start_time := 0, duration := 5, finished := false, loaded := false, detected_people := [] }

/-- Per-frame oracle input for the people mode: the frame time and the
identities the detector + matcher pipeline recognizes on this frame
(including `"Unknown"` entries). -/
structure PFrameInput where
  now : Time
  faces : List String

/-- Python `set.add` on the seen-identities set. -/
def addSeen (l : List String) (x : String) : List String :=
  if x ∈ l then l else l ++ [x]

/-- Model of `PeopleMode._ensure_loaded`, with the model-load outcome as oracle
`ok`; a failed load leaves `loaded` false (and is retried on the next
`on_enter`). -/
def ensureLoadedP (s : PeopleState) (ok : Bool) : PeopleState :=
  if s.loaded then s else if ok then { s with loaded := true } else s

/-- Model of `PeopleMode.on_enter`: ensure models are loaded, record the scan start
time, clear the finished flag and the seen-identities set. -/
def peopleOnEnter (s : PeopleState) (now : Time) (loadOk : Bool) : PeopleState :=
  { ensureLoadedP s loadOk with start_time := now, finished := false, detected_people := [] }

/-- Model of `PeopleMode.is_finished`. -/
def isFinishedP (s : PeopleState) : Bool := s.finished

/-- Model of `PeopleMode.process_frame` (frame drawing omitted): after the scan
window elapses, flips `finished` and emits the one-shot summary; while
scanning, adds every recognized identity of the frame to the seen set and
speaks nothing; once finished, reports "Scan Complete" and nothing else. -/
def processFrameP (s : PeopleState) (inp : PFrameInput) : PeopleState × List String × List String :=
  if s.finished then (s, ["Scan Complete"], [])
  else if s.duration < inp.now - s.start_time then
    let s1 : PeopleState := { s with finished := true }
    if s.detected_people ≠ [] then
      let known := s.detected_people.filter (fun n => n ≠ "Unknown")
      if known ≠ [] then
        let summary := "I see " ++ pyJoin " and " known
        (s1, ["Scanning for people...", summary], [summary])
      else (s1, ["Scanning for people...", "No one recognized."], ["No one recognized."])
    else (s1, ["Scanning for people...", "No one found."], ["No one found."])
  else if s.loaded then
    ({ s with detected_people := inp.faces.foldl addSeen s.detected_people },
     ["Scanning for people..."], [])
  else (s, ["Scanning for people..."], [])

/-- Run the people mode over a list of frames, collecting the speech lists
per frame in order. -/
def runP : PeopleState → List PFrameInput → PeopleState × List (List String)
  | s, [] => (s, [])
  | s, i :: rest =>
    let r := processFrameP s i
    let next := runP r.1 rest
    (next.1, r.2.2 :: next.2)

/-- One scanning-phase fold step over a frame's recognized identities. -/
def seenStep (acc : List String) (f : PFrameInput) : List String :=
  f.faces.foldl addSeen acc

/-- The conclusion of the one-shot person-scan claim, for a scan entered at
time `ts` with duration `d`, run over scanning frames `pre`, a first frame
`trig` past the window, and further frames `post`. -/
def C3Concl (ts d : Time) (pre : List PFrameInput) (trig : PFrameInput)
    (post : List PFrameInput) : Prop :=
  let s0 : PeopleState :=
    { start_time := ts, duration := d, finished := false, loaded := true, detected_people := [] }
  let seen := (runP s0 pre).1.detected_people
  let known := seen.filter (fun n => n ≠ "Unknown")
  let speeches := (runP s0 (pre ++ trig :: post)).2
  (d = 5 → peopleOnEnter peopleInit ts true = s0) ∧
  isFinishedP (runP s0 pre).1 = false ∧
  (∀ l : List PFrameInput, isFinishedP (runP s0 l).1 = true → ∃ i ∈ l, d < i.now - ts) ∧
  (runP s0 pre).2 = pre.map (fun _ => []) ∧
  isFinishedP (runP s0 (pre ++ trig :: post)).1 = true ∧
  seen.Nodup ∧
  (∀ x, x ∈ seen ↔ ∃ f ∈ pre, x ∈ f.faces) ∧
  (∀ x, x ∈ known ↔ x ∈ seen ∧ x ≠ "Unknown") ∧
  (seen = [] →
    speeches = pre.map (fun _ => []) ++ ["No one found."] :: post.map (fun _ => [])) ∧
  (seen ≠ [] → (∀ x ∈ seen, x = "Unknown") →
    speeches = pre.map (fun _ => []) ++ ["No one recognized."] :: post.map (fun _ => [])) ∧
  ((∃ x ∈ seen, x ≠ "Unknown") →
    speeches = pre.map (fun _ => []) ++
      ["I see " ++ pyJoin " and " known] :: post.map (fun _ => []))

/-- Scenario-D shaped scanning frames: Alice and an unknown face seen
during the window. -/
def c3PreInputs : List PFrameInput :=
  [{ now := 1, faces := ["Alice", "Unknown"] },
   { now := 2, faces := ["Alice"] },
   { now := 3, faces := [] }]

/-- First frame past the 5-second window. -/
def c3TrigInput : PFrameInput := { now := 51/10, faces := [] }

/-- A frame after the summary frame. -/
def c3PostInputs : List PFrameInput := [{ now := 6, faces := [] }]

/-! ## Speech delivery pipeline (`blindaid/core/audio.py`) -/

/-- The bounded speech queue of an `AudioPlayer`: its contents plus the
fixed capacity of `Queue(maxsize=10)`. Worker-side consumption runs on a
separate thread and is not part of the enqueue claims. -/
structure AudioQueueState where
  capacity : Nat
  items : List String
deriving DecidableEq

/-- The queue as `AudioPlayer.__init__` creates it. -/
def audioInit : AudioQueueState := { capacity := 10, items := [] }

/-- Model of `AudioPlayer.speak`: `put_nowait` appends when the queue has room; on
a full queue the `queue.Full` exception is caught, a warning is logged and
the message dropped (second component `true`). The function is total: no
exception reaches the caller. -/
def speak (q : AudioQueueState) (msg : String) : AudioQueueState × Bool :=
  if q.items.length < q.capacity then ({ q with items := q.items ++ [msg] }, false)
  else (q, true)

/-- Enqueue a whole list of messages in order. -/
def speakAll (q : AudioQueueState) : List String → AudioQueueState
  | [] => q
  | m :: rest => speakAll (speak q m).1 rest

/-! ## Mode controller (`blindaid/controller.py`) -/

/-- A transient on-screen message with its expiry timestamp. -/
structure OverlayMessage where
  text : String
  expires_at : Time
deriving DecidableEq

/-- The keys of `ModeController._mode_factories` (and of `mode_labels`). -/
def modeKeys : List String := ["sitting", "guardian", "reading", "people"]

/-- Model of `ModeController.mode_labels`. -/
def modeLabel (k : String) : String :=
  if k = "sitting" then "Sitting (Idle)"
  else if k = "guardian" then "Walking"
  else if k = "reading" then "Reading"
  else if k = "people" then "People"
  else k

/-- Controller state relevant to the mode registry / switcher / overlay
claims: the current and previous mode keys, the overlay store, the
constructed mode instances (key paired with a distinct instance id drawn
from `nextId`), and the log of factory invocations. Camera, fps and audio
handles are unrelated to these claims and omitted. -/
structure CtrlState where
  current_mode_key : String
  previous_mode_key : String
  overlays : List OverlayMessage
  instAssoc : List (String × Nat)
  nextId : Nat
  factoryCalls : List String
deriving DecidableEq

/-- Model of `ModeController.__init__` mode-key logic: the requested initial mode is
lower-cased and replaced by `"sitting"` when unrecognized; both the current
and previous keys start there. -/
def ctrlInit (initialMode : Option String) : CtrlState :=
  let requested := (initialMode.getD "sitting").toLower
  let requested := if requested ∈ modeKeys then requested else "sitting"
  { current_mode_key := requested
    previous_mode_key := requested
    overlays := []
    instAssoc := []
    nextId := 0
    factoryCalls := [] }

/-- Model of `ModeController._get_mode`: `none` models the `KeyError` raised for an
unknown key (no construction, state unchanged); otherwise the cached
instance is returned, constructing it through the factory exactly when the
key is not yet in `_mode_instances`. -/
def getMode (s : CtrlState) (key : String) : Option Nat × CtrlState :=
  if key ∉ modeKeys then (none, s)
  else
    match s.instAssoc.lookup key with
    | some id => (some id, s)
    | none =>
      (some s.nextId,
       { s with instAssoc := s.instAssoc ++ [(key, s.nextId)]
                nextId := s.nextId + 1
                factoryCalls := s.factoryCalls ++ [key] })

/-- Model of `ModeController._add_overlay`. -/
def addOverlay (s : CtrlState) (text : String) (duration now : Time) : CtrlState :=
  { s with overlays := s.overlays ++ [{ text := text, expires_at := now + duration }] }

/-- Model of `ModeController._switch_mode` at wall-clock time `now`. The
`exitRaises` / `enterRaises` oracles say whether the outgoing `on_exit` and
incoming `on_enter` hooks raise; both exceptions are caught and logged, so
the result cannot depend on them. -/
def switchMode (s : CtrlState) (target : String) (now : Time)
    (exitRaises enterRaises : Bool) : CtrlState :=
  if target = s.current_mode_key then s
  else if target ∉ modeKeys then s
  else
    let s1 := (getMode s s.current_mode_key).2
    let s2 : CtrlState := { s1 with current_mode_key := target }
    let s3 := (getMode s2 target).2
    addOverlay s3 ("Switched to " ++ modeLabel target ++ " mode") (5/2) now

/-- Model of `ModeController._active_overlays`, store side: prune entries whose
expiry is not strictly in the future. -/
def activeEntries (l : List OverlayMessage) (now : Time) : List OverlayMessage :=
  l.filter (fun o => now < o.expires_at)

/-- Model of `ModeController._active_overlays`, returned messages: the texts of the
surviving entries in insertion order. -/
def activeMessages (l : List OverlayMessage) (now : Time) : List String :=
  (activeEntries l now).map OverlayMessage.text

/-- A sequence of `_get_mode` calls, as the controller loop, switcher and
preloader issue them. -/
def runGets (s : CtrlState) : List String → CtrlState
  | [] => s
  | k :: rest => runGets (getMode s k).2 rest

/-! ## Theorems -/

/-- Generic debounce lemma: if every emitting step requires the cooldown to
have elapsed since `last` and stamps `last` with the frame time, while
silent steps leave `last` alone and the cooldown is a run constant, then
every emission is more than a cooldown after the initial `last`, and any
two emissions of the run are at least a cooldown apart. -/
theorem emissionTimes_spacing {σ ι : Type} (step : σ → ι → σ) (emits : σ → ι → Bool)
    (tm : ι → Time) (last cdf : σ → Time)
    (h0 : ∀ s i, cdf (step s i) = cdf s)
    (h1 : ∀ s i, emits s i = true → cdf s < tm i - last s ∧ last (step s i) = tm i)
    (h2 : ∀ s i, emits s i = false → last (step s i) = last s) :
    ∀ (l : List ι) (s : σ), 0 ≤ cdf s →
      (∀ e ∈ emissionTimes step emits tm s l, cdf s < e - last s) ∧
      (emissionTimes step emits tm s l).Pairwise (fun a b => cdf s ≤ b - a) := by
  intro l
  induction l with
  | nil => intro s _; simp [emissionTimes]
  | cons i rest ih =>
    intro s hs
    have hs' : 0 ≤ cdf (step s i) := by rw [h0]; exact hs
    have ihs := ih (step s i) hs'
    by_cases h : emits s i = true
    · have he := h1 s i h
      constructor
      · intro e hmem
        simp only [emissionTimes, if_pos h, List.mem_cons] at hmem
        rcases hmem with rfl | hmem
        · exact he.1
        · have hrec := ihs.1 e hmem
          rw [h0, he.2] at hrec
          have := he.1
          linarith
      · simp only [emissionTimes, if_pos h]
        refine List.Pairwise.cons ?_ ?_
        · intro b hb
          have hrec := ihs.1 b hb
          rw [h0, he.2] at hrec
          linarith
        · have := ihs.2
          simp only [h0] at this
          exact this
    · have hf : emits s i = false := by simpa using h
      have hl := h2 s i hf
      constructor
      · intro e hmem
        simp only [emissionTimes, if_neg h] at hmem
        have hrec := ihs.1 e hmem
        rw [h0, hl] at hrec
        exact hrec
      · simp only [emissionTimes, if_neg h]
        have := ihs.2
        simp only [h0] at this
        exact this

theorem ocrPhase_cooldown (s : ReadingState) (i : RFrameInput) :
    (ocrPhase s i).1.cooldown = s.cooldown ∧ (ocrPhase s i).1.last_spoken = s.last_spoken := by
  unfold ocrPhase ensureOcr
  dsimp only
  constructor <;> split_ifs <;> rfl

theorem processFrameG_cooldown (s : GuardianState) (i : GFrameInput) :
    (processFrameG s i).1.warning_cooldown = s.warning_cooldown := by
  rcases i with ⟨now, mov, depth⟩
  unfold processFrameG
  cases depth <;> dsimp only <;> split_ifs <;> rfl

theorem processFrameG_emit (s : GuardianState) (i : GFrameInput)
    (h : guardianEmits s i = true) :
    s.warning_cooldown < i.now - s.last_warning_time ∧
    (processFrameG s i).1.last_warning_time = i.now := by
  unfold guardianEmits at h
  rcases i with ⟨now, mov, depth⟩
  unfold processFrameG at h ⊢
  cases depth <;> dsimp only at h ⊢ <;> split_ifs at h ⊢ <;> simp_all

theorem processFrameG_silent (s : GuardianState) (i : GFrameInput)
    (h : guardianEmits s i = false) :
    (processFrameG s i).1.last_warning_time = s.last_warning_time := by
  unfold guardianEmits at h
  rcases i with ⟨now, mov, depth⟩
  unfold processFrameG at h ⊢
  cases depth <;> dsimp only at h ⊢ <;> split_ifs at h ⊢ <;> simp_all

theorem gatePhase_cooldown (s : ReadingState) (now : Time) :
    (gatePhase s now).1.cooldown = s.cooldown := by
  unfold gatePhase
  dsimp only
  split_ifs <;> rfl

theorem gatePhase_emit (s : ReadingState) (now : Time)
    (h : (gatePhase s now).2.2 ≠ []) :
    s.cooldown < now - s.last_spoken ∧ (gatePhase s now).1.last_spoken = now := by
  unfold gatePhase at h ⊢
  dsimp only at h ⊢
  split_ifs at h ⊢ <;> simp_all

theorem gatePhase_silent (s : ReadingState) (now : Time)
    (h : (gatePhase s now).2.2 = []) :
    (gatePhase s now).1.last_spoken = s.last_spoken := by
  unfold gatePhase at h ⊢
  dsimp only at h ⊢
  split_ifs at h ⊢ <;> simp_all

theorem processFrameR_cooldown (s : ReadingState) (i : RFrameInput) :
    (processFrameR s i).1.cooldown = s.cooldown := by
  unfold processFrameR
  dsimp only
  rw [gatePhase_cooldown, (ocrPhase_cooldown s i).1]

theorem processFrameR_emit (s : ReadingState) (i : RFrameInput)
    (h : readingEmits s i = true) :
    s.cooldown < i.now - s.last_spoken ∧ (processFrameR s i).1.last_spoken = i.now := by
  unfold readingEmits processFrameR at h
  unfold processFrameR
  dsimp only at h ⊢
  have hco := ocrPhase_cooldown s i
  have hne : (gatePhase (ocrPhase s i).1 i.now).2.2 ≠ [] := by
    intro hemp
    simp [hemp] at h
  have hx := gatePhase_emit (ocrPhase s i).1 i.now hne
  rw [hco.1, hco.2] at hx
  exact hx

theorem processFrameR_silent (s : ReadingState) (i : RFrameInput)
    (h : readingEmits s i = false) :
    (processFrameR s i).1.last_spoken = s.last_spoken := by
  unfold readingEmits processFrameR at h
  unfold processFrameR
  dsimp only at h ⊢
  have hco := ocrPhase_cooldown s i
  have hemp : (gatePhase (ocrPhase s i).1 i.now).2.2 = [] := by
    rcases hl : (gatePhase (ocrPhase s i).1 i.now).2.2 with _ | ⟨a, l⟩
    · rfl
    · simp [hl] at h
  have hx := gatePhase_silent (ocrPhase s i).1 i.now hemp
  rw [hco.2] at hx
  exact hx

/-- Claim C2. For every sequence of frames processed by a single mode
instance, no two speech emissions governed by the same debounce key occur
with a gap smaller than that mode's configured cooldown: in guardian
(obstacle-warning) mode any two emitted warnings are at least
`warning_cooldown` (2.0 s) apart, and in text-reading mode any two spoken
texts are at least `OCR_COOLDOWN_SECONDS` (5 s) apart. -/
theorem c2_cooldown_spacing (t0 : Time) (gl : List GFrameInput) (rl : List RFrameInput) :
    (guardianEmissions (guardianInit t0) gl).Pairwise (fun a b => (2 : Rat) ≤ b - a) ∧
    (readingEmissions (readingInit true) rl).Pairwise (fun a b => (5 : Rat) ≤ b - a) := by
  constructor
  · exact (emissionTimes_spacing (fun s i => (processFrameG s i).1) guardianEmits
      GFrameInput.now GuardianState.last_warning_time GuardianState.warning_cooldown
      (fun s i => processFrameG_cooldown s i)
      (fun s i hi => processFrameG_emit s i hi)
      (fun s i hi => processFrameG_silent s i hi)
      gl (guardianInit t0) (by norm_num [guardianInit])).2
  · exact (emissionTimes_spacing (fun s i => (processFrameR s i).1) readingEmits
      RFrameInput.now ReadingState.last_spoken ReadingState.cooldown
      (fun s i => processFrameR_cooldown s i)
      (fun s i hi => processFrameR_emit s i hi)
      (fun s i hi => processFrameR_silent s i hi)
      rl (readingInit true) (by norm_num [readingInit])).2

/-- Claim C10. `GuardianMode.on_enter` resets only the frame counter and
the motion state (to idle) and leaves `last_warning_time` (and every other
field) unchanged, so the warning cooldown keeps applying across an
exit/re-entry: a frame whose time is within `warning_cooldown` of the
pre-switch warning produces no speech, whatever its depth reading. -/
theorem c10_guardian_reentry (s : GuardianState) (inp : GFrameInput)
    (h : inp.now - s.last_warning_time ≤ s.warning_cooldown) :
    guardianOnEnter s = { s with frame_counter := 0, state_active := false } ∧
    (guardianOnEnter s).last_warning_time = s.last_warning_time ∧
    (processFrameG (guardianOnEnter s) inp).2.2 = [] := by
  refine ⟨rfl, rfl, ?_⟩
  rcases inp with ⟨now, mov, depth⟩
  dsimp only at h
  unfold processFrameG guardianOnEnter
  cases depth with
  | none =>
    dsimp only
    split_ifs <;> rfl
  | some d =>
    dsimp only
    split_ifs <;> (try rfl) <;> (exfalso; linarith)

theorem c10_witness :
    (processFrameG (guardianOnEnter { guardianInit 0 with last_warning_time := 100 })
      { now := 101, is_moving := true, depth := some (100, 50) }).2.2 = [] :=
  (c10_guardian_reentry { guardianInit 0 with last_warning_time := 100 }
    { now := 101, is_moving := true, depth := some (100, 50) }
    (by norm_num [guardianInit])).2.2

/-- Claim C1, counterexample. On ten frames 0.1 s apart with the OCR stub
returning the identical high-confidence line "EXIT" (score 0.97, threshold
0.9, cooldown elapsed, audio enabled), the speech is emitted on frame 7 —
a cached frame two frames after the first processed frame — and NOT on the
second processed frame (frame 10), refuting "process_frame emits the
speech exactly on the second such processed frame". The gate requires
`stable_text_count >= 2`, reached only on the third consecutive frame
carrying the same concatenated text, and the counter advances on cached
frames too. -/
theorem c1_counterexample :
    (runReading (readingInit true) c1CexInputs).2.map RFrameOut.speech
      = [[], [], [], [], [], [], ["EXIT"], [], [], []] := by
  with_unfolding_all decide

/-- Claim C1, amended. In text-reading mode with a fresh instance, when
OCR returns one identical line above the confidence threshold on every
frame and the cooldown has elapsed and audio is enabled, the speech is
emitted exactly on the third consecutive frame carrying that concatenated
text — with the configured frame-skip of 4 this is the second cached frame
after the first processed frame (frame 7 of 7) — and on no earlier frame;
in particular not on the first processed frame. -/
theorem c1_amended (tx : String) (sc : Rat) (t1 t2 t3 t4 t5 t6 t7 : Time)
    (htx : tx ≠ "") (hsc : (9 : Rat)/10 ≤ sc) (ht7 : (5 : Rat) < t7) :
    (runReading (readingInit true)
      [{ now := t1, ocr_init_ok := true, ocr_lines := [(tx, sc)] },
       { now := t2, ocr_init_ok := true, ocr_lines := [(tx, sc)] },
       { now := t3, ocr_init_ok := true, ocr_lines := [(tx, sc)] },
       { now := t4, ocr_init_ok := true, ocr_lines := [(tx, sc)] },
       { now := t5, ocr_init_ok := true, ocr_lines := [(tx, sc)] },
       { now := t6, ocr_init_ok := true, ocr_lines := [(tx, sc)] },
       { now := t7, ocr_init_ok := true, ocr_lines := [(tx, sc)] }]).2.map RFrameOut.speech
      = [[], [], [], [], [], [], [tx]] := by
  have hskip : ∀ (fc : Nat) (i : RFrameInput), (fc + 1) % 5 ≠ 0 →
      processFrameR { readingInit true with frame_count := fc } i
      = ({ readingInit true with frame_count := fc + 1 },
         { info := ["No text detected - show printed text to the camera"]
           speech := []
           attempted := false }) := by
    intro fc i hfc
    simp [processFrameR, ocrPhase, gatePhase, ensureOcr, readingInit, hfc]
  have h1 := hskip 0
  have h2 := hskip 1
  have h3 := hskip 2
  have h4 := hskip 3
  have h5 : processFrameR { readingInit true with frame_count := 4 }
      { now := t5, ocr_init_ok := true, ocr_lines := [(tx, sc)] }
      = ({ readingInit true with
            frame_count := 5
            ocr_available := true
            last_text_data := [(tx, sc)]
            last_text := tx },
         { info := [tx], speech := [], attempted := true }) := by
    simp [processFrameR, ocrPhase, gatePhase, ensureOcr, readingInit, pyJoin, htx, hsc]
  have h6 : processFrameR
      { readingInit true with
          frame_count := 5
          ocr_available := true
          last_text_data := [(tx, sc)]
          last_text := tx }
      { now := t6, ocr_init_ok := true, ocr_lines := [(tx, sc)] }
      = ({ readingInit true with
            frame_count := 6
            ocr_available := true
            last_text_data := [(tx, sc)]
            last_text := tx
            stable_text_count := 1 },
         { info := [tx], speech := [], attempted := false }) := by
    simp [processFrameR, ocrPhase, gatePhase, ensureOcr, readingInit, pyJoin, htx, hsc]
  have h7 : processFrameR
      { readingInit true with
          frame_count := 6
          ocr_available := true
          last_text_data := [(tx, sc)]
          last_text := tx
          stable_text_count := 1 }
      { now := t7, ocr_init_ok := true, ocr_lines := [(tx, sc)] }
      = ({ readingInit true with
            frame_count := 7
            ocr_available := true
            last_text_data := [(tx, sc)]
            last_text := tx
            stable_text_count := 2
            last_spoken := t7 },
         { info := [tx], speech := [tx], attempted := false }) := by
    simp [processFrameR, ocrPhase, gatePhase, ensureOcr, readingInit, pyJoin, htx, hsc,
      sub_zero, ht7]
  have e0 : ({ readingInit true with frame_count := 0 } : ReadingState) = readingInit true := rfl
  simp only [runReading]
  rw [show processFrameR (readingInit true) { now := t1, ocr_init_ok := true, ocr_lines := [(tx, sc)] }
        = _ from e0 ▸ h1 _ (by decide)]
  simp only []
  rw [h2 _ (by decide), h3 _ (by decide), h4 _ (by decide), h5, h6, h7]
  rfl

theorem c1_amended_witness :
    (runReading (readingInit true)
      [{ now := 1, ocr_init_ok := true, ocr_lines := [("EXIT", 97/100)] },
       { now := 2, ocr_init_ok := true, ocr_lines := [("EXIT", 97/100)] },
       { now := 3, ocr_init_ok := true, ocr_lines := [("EXIT", 97/100)] },
       { now := 4, ocr_init_ok := true, ocr_lines := [("EXIT", 97/100)] },
       { now := 5, ocr_init_ok := true, ocr_lines := [("EXIT", 97/100)] },
       { now := 6, ocr_init_ok := true, ocr_lines := [("EXIT", 97/100)] },
       { now := 7, ocr_init_ok := true, ocr_lines := [("EXIT", 97/100)] }]).2.map RFrameOut.speech
      = [[], [], [], [], [], [], ["EXIT"]] :=
  c1_amended "EXIT" (97/100) 1 2 3 4 5 6 7 (by decide) (by norm_num) (by norm_num)

theorem addSeen_mem (l : List String) (y x : String) :
    x ∈ addSeen l y ↔ x ∈ l ∨ x = y := by
  unfold addSeen
  split_ifs with h
  · constructor
    · exact fun hx => Or.inl hx
    · rintro (hx | rfl) <;> [exact hx; exact h]
  · simp [List.mem_append]

theorem addSeen_nodup (l : List String) (y : String) (h : l.Nodup) :
    (addSeen l y).Nodup := by
  unfold addSeen
  split_ifs with hy
  · exact h
  · simpa [List.nodup_append] using ⟨h, hy⟩

theorem foldl_addSeen_mem (faces : List String) :
    ∀ (acc : List String) (x : String),
      x ∈ faces.foldl addSeen acc ↔ x ∈ acc ∨ x ∈ faces := by
  induction faces with
  | nil => simp
  | cons f rest ih =>
    intro acc x
    rw [List.foldl_cons, ih, addSeen_mem]
    simp [or_assoc, or_comm, or_left_comm]

theorem foldl_addSeen_nodup (faces : List String) :
    ∀ (acc : List String), acc.Nodup → (faces.foldl addSeen acc).Nodup := by
  induction faces with
  | nil => exact fun acc h => h
  | cons f rest ih => exact fun acc h => ih _ (addSeen_nodup acc f h)

theorem runP_scan (pre : List PFrameInput) :
    ∀ (s : PeopleState), s.finished = false → s.loaded = true →
      (∀ i ∈ pre, i.now - s.start_time ≤ s.duration) →
      runP s pre = ({ s with detected_people := pre.foldl seenStep s.detected_people },
                    pre.map fun _ => []) := by
  induction pre with
  | nil => intro s _ _ _; simp [runP]
  | cons i rest ih =>
    intro s hfin hload hpre
    have hstep : processFrameP s i
        = ({ s with detected_people := seenStep s.detected_people i },
           ["Scanning for people..."], []) := by
      unfold processFrameP
      rw [if_neg (by simp [hfin]), if_neg (not_lt.mpr (hpre i (by simp))), if_pos hload]
      rfl
    have ihs := ih { s with detected_people := seenStep s.detected_people i }
      hfin hload (fun j hj => hpre j (by simp [hj]))
    simp only [runP, hstep, ihs, List.foldl_cons, List.map_cons]

theorem runP_done (l : List PFrameInput) :
    ∀ (s : PeopleState), s.finished = true →
      runP s l = (s, l.map fun _ => []) := by
  induction l with
  | nil => intro s _; simp [runP]
  | cons i rest ih =>
    intro s hfin
    have hstep : processFrameP s i = (s, ["Scan Complete"], []) := by
      unfold processFrameP
      rw [if_pos hfin]
    simp only [runP, hstep, ih s hfin, List.map_cons]

theorem runP_finished_only (l : List PFrameInput) :
    ∀ (s : PeopleState), s.finished = false →
      (runP s l).1.finished = true → ∃ i ∈ l, s.duration < i.now - s.start_time := by
  induction l with
  | nil => intro s hfin h; simp [runP] at h; simp [h] at hfin
  | cons i rest ih =>
    intro s hfin h
    by_cases htr : s.duration < i.now - s.start_time
    · exact ⟨i, by simp, htr⟩
    · have hstate : (processFrameP s i).1.finished = false ∧
          (processFrameP s i).1.duration = s.duration ∧
          (processFrameP s i).1.start_time = s.start_time := by
        unfold processFrameP
        rw [if_neg (by simp [hfin]), if_neg htr]
        split_ifs <;> exact ⟨hfin, rfl, rfl⟩
      simp only [runP] at h
      obtain ⟨j, hj, hlt⟩ := ih (processFrameP s i).1 hstate.1 h
      rw [hstate.2.1, hstate.2.2] at hlt
      exact ⟨j, by simp [hj], hlt⟩

theorem foldl_seenStep_mem (pre : List PFrameInput) :
    ∀ (acc : List String) (x : String),
      x ∈ pre.foldl seenStep acc ↔ x ∈ acc ∨ ∃ f ∈ pre, x ∈ f.faces := by
  induction pre with
  | nil => simp
  | cons i rest ih =>
    intro acc x
    rw [List.foldl_cons, ih]
    unfold seenStep
    rw [foldl_addSeen_mem]
    simp [or_assoc]

theorem foldl_seenStep_nodup (pre : List PFrameInput) :
    ∀ (acc : List String), acc.Nodup → (pre.foldl seenStep acc).Nodup := by
  induction pre with
  | nil => exact fun acc h => h
  | cons i rest ih => exact fun acc h => ih _ (foldl_addSeen_nodup i.faces acc h)

theorem runP_append (l1 l2 : List PFrameInput) :
    ∀ (s : PeopleState),
      runP s (l1 ++ l2)
        = ((runP (runP s l1).1 l2).1, (runP s l1).2 ++ (runP (runP s l1).1 l2).2) := by
  induction l1 with
  | nil => intro s; simp [runP]
  | cons i rest ih => intro s; simp [runP, ih]

theorem processFrameP_trigger (s : PeopleState) (i : PFrameInput)
    (hfin : s.finished = false) (htr : s.duration < i.now - s.start_time) :
    (processFrameP s i).1 = { s with finished := true } ∧
    (processFrameP s i).2.2 =
      [if s.detected_people ≠ [] then
         if s.detected_people.filter (fun n => n ≠ "Unknown") ≠ [] then
           "I see " ++ pyJoin " and " (s.detected_people.filter (fun n => n ≠ "Unknown"))
         else "No one recognized."
       else "No one found."] := by
  unfold processFrameP
  rw [if_neg (by simp [hfin]), if_pos htr]
  dsimp only
  split_ifs <;> simp_all

/-- Claim C3. For the one-shot person-scan mode with a fixed duration and
any scripted sequence of per-frame recognized identities: `is_finished()`
is true only once elapsed time exceeds the duration (and in particular is
at least the duration); the single summary emitted at that point is
"No one found." when the seen set is empty, "No one recognized." when it
is non-empty and contains only "Unknown", and otherwise names exactly the
known identities seen, each exactly once; no speech is emitted during the
scanning phase or after the summary frame. -/
theorem c3_one_shot_scan (ts d : Time) (pre : List PFrameInput) (trig : PFrameInput)
    (post : List PFrameInput)
    (hpre : ∀ i ∈ pre, i.now - ts ≤ d) (htrig : d < trig.now - ts) :
    C3Concl ts d pre trig post := by
  unfold C3Concl
  set s0 : PeopleState :=
    { start_time := ts, duration := d, finished := false, loaded := true, detected_people := [] }
    with hs0
  have hscan := runP_scan pre s0 rfl rfl (fun i hi => hpre i hi)
  have hseen : (runP s0 pre).1.detected_people = pre.foldl seenStep [] := by
    rw [hscan]
  have htrig1 : (processFrameP (runP s0 pre).1 trig).1
        = { (runP s0 pre).1 with finished := true } ∧
      (processFrameP (runP s0 pre).1 trig).2.2
        = [if (runP s0 pre).1.detected_people ≠ [] then
             if (runP s0 pre).1.detected_people.filter (fun n => n ≠ "Unknown") ≠ [] then
               "I see " ++
                 pyJoin " and " ((runP s0 pre).1.detected_people.filter (fun n => n ≠ "Unknown"))
             else "No one recognized."
           else "No one found."] := by
    refine processFrameP_trigger _ _ ?_ ?_
    · rw [hscan]
    · rw [hscan]; exact htrig
  have hfull := runP_append pre (trig :: post) s0
  have hrest : runP (runP s0 pre).1 (trig :: post)
      = ((runP (processFrameP (runP s0 pre).1 trig).1 post).1,
         (processFrameP (runP s0 pre).1 trig).2.2
           :: (runP (processFrameP (runP s0 pre).1 trig).1 post).2) := by
    simp only [runP]
  have hpost := runP_done post (processFrameP (runP s0 pre).1 trig).1
    (by rw [htrig1.1])
  refine ⟨?_, ?_, ?_, ?_, ?_, ?_, ?_, ?_, ?_, ?_, ?_⟩
  · intro hd
    subst hd
    rfl
  · rw [hscan]; rfl
  · intro l hl
    exact runP_finished_only l s0 rfl hl
  · rw [hscan]
  · rw [hfull]
    unfold isFinishedP
    rw [hrest]
    dsimp only
    rw [hpost]
    dsimp only
    rw [htrig1.1, hscan]
  · rw [hseen]
    exact foldl_seenStep_nodup pre [] List.nodup_nil
  · intro x
    rw [hseen, foldl_seenStep_mem]
    simp
  · intro x
    rw [List.mem_filter]
    simp
  · intro hempty
    have hsp : (runP s0 pre).2 = pre.map (fun _ => ([] : List String)) := by rw [hscan]
    rw [hfull, hrest]
    dsimp only
    rw [hpost]
    dsimp only
    rw [htrig1.2, if_neg (fun h => h hempty), hsp]
  · intro hne hall
    have hfil : (runP s0 pre).1.detected_people.filter (fun n => n ≠ "Unknown") = [] := by
      rw [List.filter_eq_nil_iff]
      intro a ha
      simp [hall a ha]
    have hsp : (runP s0 pre).2 = pre.map (fun _ => ([] : List String)) := by rw [hscan]
    rw [hfull, hrest]
    dsimp only
    rw [hpost]
    dsimp only
    rw [htrig1.2, if_pos hne, if_neg (fun h => h hfil), hsp]
  · rintro ⟨x, hx, hxu⟩
    have hne : (runP s0 pre).1.detected_people ≠ [] := by
      intro hemp
      rw [hemp] at hx
      exact absurd hx (List.not_mem_nil x)
    have hfil : (runP s0 pre).1.detected_people.filter (fun n => n ≠ "Unknown") ≠ [] := by
      intro hemp
      have : x ∈ (runP s0 pre).1.detected_people.filter (fun n => n ≠ "Unknown") := by
        rw [List.mem_filter]
        simp [hx, hxu]
      rw [hemp] at this
      exact absurd this (List.not_mem_nil x)
    have hsp : (runP s0 pre).2 = pre.map (fun _ => ([] : List String)) := by rw [hscan]
    rw [hfull, hrest]
    dsimp only
    rw [hpost]
    dsimp only
    rw [htrig1.2, if_pos hne, if_pos hfil, hsp]

theorem c3_witness :
    (runP { start_time := 0, duration := 5, finished := false, loaded := true,
            detected_people := [] }
       (c3PreInputs ++ c3TrigInput :: c3PostInputs)).2
      = [[], [], [], ["I see Alice"], []] := by
  have h := c3_one_shot_scan 0 5 c3PreInputs c3TrigInput c3PostInputs
    (by with_unfolding_all decide) (by with_unfolding_all decide)
  have h11 := h.2.2.2.2.2.2.2.2.2.2
    ⟨"Alice", by with_unfolding_all decide, by decide⟩
  exact h11.trans (by with_unfolding_all decide)

theorem speakAll_bounded (msgs : List String) :
    ∀ (q : AudioQueueState), q.items.length ≤ q.capacity →
      (speakAll q msgs).items.length ≤ (speakAll q msgs).capacity ∧
      (speakAll q msgs).capacity = q.capacity := by
  induction msgs with
  | nil => exact fun q h => ⟨h, rfl⟩
  | cons m rest ih =>
    intro q h
    have hstep : (speak q m).1.items.length ≤ (speak q m).1.capacity ∧
        (speak q m).1.capacity = q.capacity := by
      unfold speak
      split_ifs with hlt
      · exact ⟨by simpa using hlt, rfl⟩
      · exact ⟨h, rfl⟩
    have hrec := ih (speak q m).1 hstep.1
    refine ⟨?_, ?_⟩
    · rw [speakAll]
      exact hrec.1
    · rw [speakAll, hrec.2, hstep.2]

/-- Claim C4. `AudioPlayer.speak` never blocks or raises (it is a total
function: the full-queue exception is caught inside it); a call on a full
queue drops the message and leaves the queue unchanged; and the number of
queued messages never exceeds the fixed capacity 10, over any sequence of
enqueues from the initial empty queue. -/
theorem c4_speech_queue (msgs : List String) (q : AudioQueueState) (msg : String) :
    (speakAll audioInit msgs).items.length ≤ 10 ∧
    (speakAll audioInit msgs).capacity = 10 ∧
    (q.capacity ≤ q.items.length → speak q msg = (q, true)) ∧
    (q.items.length ≤ q.capacity → (speak q msg).1.items.length ≤ q.capacity) := by
  have hb := speakAll_bounded msgs audioInit (by simp [audioInit])
  refine ⟨?_, ?_, ?_, ?_⟩
  · have hc : (speakAll audioInit msgs).capacity = 10 := by
      rw [hb.2]
      rfl
    rw [← hc]
    exact hb.1
  · rw [hb.2]
    rfl
  · intro hfull
    unfold speak
    rw [if_neg (not_lt.mpr hfull)]
  · intro hle
    unfold speak
    split_ifs with hlt
    · simpa using hlt
    · exact hle

theorem c4_witness :
    speak { capacity := 10,
            items := ["a", "b", "c", "d", "e", "f", "g", "h", "i", "j"] } "overflow"
      = ({ capacity := 10,
           items := ["a", "b", "c", "d", "e", "f", "g", "h", "i", "j"] }, true) :=
  (c4_speech_queue []
    { capacity := 10, items := ["a", "b", "c", "d", "e", "f", "g", "h", "i", "j"] }
    "overflow").2.2.1 (by decide)

theorem lookup_append_single (l : List (String × Nat)) (a : String) (v : Nat) (x : String) :
    (l ++ [(a, v)]).lookup x
      = match l.lookup x with
        | some w => some w
        | none => if x = a then some v else none := by
  induction l with
  | nil =>
    by_cases h : x = a
    · subst h
      simp [List.lookup]
    · have hb : (x == a) = false := beq_eq_false_iff_ne.mpr h
      simp [List.lookup, hb, h]
  | cons p rest ih =>
    rcases p with ⟨b, w⟩
    by_cases hx : x == b
    · simp [List.lookup, hx]
    · simp only [List.cons_append, List.lookup, hx]
      exact ih

theorem getMode_preserves (s : CtrlState) (k : String) :
    (getMode s k).2.current_mode_key = s.current_mode_key ∧
    (getMode s k).2.previous_mode_key = s.previous_mode_key ∧
    (getMode s k).2.overlays = s.overlays := by
  unfold getMode
  split_ifs with h
  · rcases hlk : s.instAssoc.lookup k with _ | id <;> exact ⟨rfl, rfl, rfl⟩
  · exact ⟨rfl, rfl, rfl⟩

theorem runGets_calls (ks : List String) :
    ∀ (s : CtrlState),
      (∀ x, (s.instAssoc.lookup x).isSome = true → x ∈ modeKeys) →
      ∀ k, (runGets s ks).factoryCalls.count k
        = s.factoryCalls.count k +
          (if k ∈ modeKeys ∧ (s.instAssoc.lookup k).isNone = true ∧ k ∈ ks then 1 else 0) := by
  induction ks with
  | nil => intro s _ k; simp [runGets]
  | cons j rest ih =>
    intro s hinv k
    by_cases hj : j ∈ modeKeys
    · rcases hlk : s.instAssoc.lookup j with _ | id
      · -- first request for a recognized key: the factory runs once
        have hstep : getMode s j
            = (some s.nextId,
               { s with instAssoc := s.instAssoc ++ [(j, s.nextId)]
                        nextId := s.nextId + 1
                        factoryCalls := s.factoryCalls ++ [j] }) := by
          unfold getMode
          rw [if_neg (by simpa using hj), hlk]
        have hinv' : ∀ x,
            (((s.instAssoc ++ [(j, s.nextId)]).lookup x).isSome = true) → x ∈ modeKeys := by
          intro x hx
          rw [lookup_append_single] at hx
          rcases hl2 : s.instAssoc.lookup x with _ | w
          · rw [hl2] at hx
            dsimp only at hx
            by_cases hxj : x = j
            · exact hxj ▸ hj
            · rw [if_neg hxj] at hx
              simp at hx
          · exact hinv x (by rw [hl2]; rfl)
        have hrec := ih { s with instAssoc := s.instAssoc ++ [(j, s.nextId)]
                                 nextId := s.nextId + 1
                                 factoryCalls := s.factoryCalls ++ [j] } hinv' k
        rw [runGets, hstep]
        dsimp only at hrec ⊢
        rw [hrec, List.count_append]
        by_cases hkj : k = j
        · subst hkj
          have hl3 : (s.instAssoc ++ [(k, s.nextId)]).lookup k = some s.nextId := by
            rw [lookup_append_single, hlk, if_pos rfl]
          rw [hl3, hlk]
          simp [hj, List.count_singleton]
        · have hlk2 : (s.instAssoc ++ [(j, s.nextId)]).lookup k = s.instAssoc.lookup k := by
            rw [lookup_append_single]
            rcases hl2 : s.instAssoc.lookup k with _ | w
            · rw [if_neg hkj]
            · rfl
          have hcnt : List.count k [j] = 0 := by
            simp [List.count_singleton']
            exact fun h => absurd h.symm hkj
          rw [hlk2, hcnt]
          have hmem : (k ∈ j :: rest) ↔ (k ∈ rest) := by simp [hkj]
          by_cases hc : k ∈ modeKeys ∧ (s.instAssoc.lookup k).isNone = true ∧ k ∈ rest
          · rw [if_pos hc, if_pos ⟨hc.1, hc.2.1, hmem.mpr hc.2.2⟩]
          · rw [if_neg hc, if_neg (by
              rintro ⟨h1, h2, h3⟩
              exact hc ⟨h1, h2, hmem.mp h3⟩)]
      · -- cached instance: no factory call
        have hstep : getMode s j = (some id, s) := by
          unfold getMode
          rw [if_neg (by simpa using hj), hlk]
        rw [runGets, hstep]
        rw [ih s hinv k]
        by_cases hkj : k = j
        · subst hkj
          rw [hlk]
          simp
        · have hmem : (k ∈ j :: rest) ↔ (k ∈ rest) := by simp [hkj]
          by_cases hc : k ∈ modeKeys ∧ (s.instAssoc.lookup k).isNone = true ∧ k ∈ rest
          · rw [if_pos hc, if_pos ⟨hc.1, hc.2.1, hmem.mpr hc.2.2⟩]
          · rw [if_neg hc, if_neg (by
              rintro ⟨h1, h2, h3⟩
              exact hc ⟨h1, h2, hmem.mp h3⟩)]
    · -- unknown key: KeyError is raised, nothing is constructed
      have hstep : getMode s j = (none, s) := by
        unfold getMode
        rw [if_pos hj]
      rw [runGets, hstep]
      rw [ih s hinv k]
      by_cases hkm : k ∈ modeKeys
      · have hkj : k ≠ j := fun h => hj (h ▸ hkm)
        have hmem : (k ∈ j :: rest) ↔ (k ∈ rest) := by simp [hkj]
        by_cases hc : k ∈ modeKeys ∧ (s.instAssoc.lookup k).isNone = true ∧ k ∈ rest
        · rw [if_pos hc, if_pos ⟨hc.1, hc.2.1, hmem.mpr hc.2.2⟩]
        · rw [if_neg hc, if_neg (by
            rintro ⟨h1, h2, h3⟩
            exact hc ⟨h1, h2, hmem.mp h3⟩)]
      · rw [if_neg (fun h => hkm h.1), if_neg (fun h => hkm h.1)]

/-- Claim C7. `ModeController._get_mode`: a second call with the same key
returns the identical instance and changes nothing; a key with no factory
raises `KeyError` (modelled `none`) and constructs nothing; and over any
call sequence from a fresh controller the factory for key `k` runs exactly
once when `k` is recognized and requested, and never otherwise. -/
theorem c7_lazy_singleton (s : CtrlState) (key : String) (i : Nat) (s' : CtrlState)
    (ks : List String) (k : String) :
    (getMode s key = (some i, s') → getMode s' key = (some i, s')) ∧
    (key ∉ modeKeys → getMode s key = (none, s)) ∧
    ((runGets (ctrlInit none) ks).factoryCalls.count k
      = if k ∈ modeKeys ∧ k ∈ ks then 1 else 0) := by
  refine ⟨?_, ?_, ?_⟩
  · intro h
    by_cases hk : key ∉ modeKeys
    · rw [getMode, if_pos hk] at h
      exact absurd (congrArg Prod.fst h) (by simp)
    · rcases hlk : s.instAssoc.lookup key with _ | id
      · rw [getMode, if_neg hk, hlk] at h
        dsimp only at h
        have hi : i = s.nextId := by
          have := congrArg Prod.fst h
          simpa using this.symm
        have hs' : s' = { s with instAssoc := s.instAssoc ++ [(key, s.nextId)]
                                 nextId := s.nextId + 1
                                 factoryCalls := s.factoryCalls ++ [key] } := by
          have := congrArg Prod.snd h
          exact this.symm
        subst hi
        subst hs'
        rw [getMode, if_neg hk]
        have hl2 : ((s.instAssoc ++ [(key, s.nextId)]).lookup key) = some s.nextId := by
          rw [lookup_append_single, hlk, if_pos rfl]
        dsimp only
        rw [hl2]
      · rw [getMode, if_neg hk, hlk] at h
        dsimp only at h
        have hi : i = id := by
          have := congrArg Prod.fst h
          simpa using this.symm
        have hs' : s' = s := by
          have := congrArg Prod.snd h
          exact this.symm
        subst hi
        subst hs'
        rw [getMode, if_neg hk, hlk]
  · intro hk
    rw [getMode, if_pos hk]
  · have hinv : ∀ x, ((ctrlInit none).instAssoc.lookup x).isSome = true → x ∈ modeKeys := by
      intro x hx
      simp [ctrlInit, List.lookup] at hx
    rw [runGets_calls ks (ctrlInit none) hinv k]
    simp [ctrlInit, List.lookup]

theorem c7_witness :
    getMode (getMode (ctrlInit none) "guardian").2 "guardian"
      = (some 0, (getMode (ctrlInit none) "guardian").2) :=
  (c7_lazy_singleton (ctrlInit none) "guardian" 0
      (getMode (ctrlInit none) "guardian").2 [] "guardian").1
    (by with_unfolding_all decide)

/-- Claim C5. `ModeController._switch_mode`: a switch to the current key
is a no-op; a switch to an unrecognized key leaves the state unchanged and
returns without error; otherwise the current key is updated to the target
regardless of whether `on_exit` / `on_enter` raise (the result does not
depend on the hook-failure oracles), and a transient overlay announcing
the switch is posted; the single current key stays within the recognized
keys. -/
theorem c5_switch (s : CtrlState) (target : String) (now : Time) (e1 e2 : Bool) :
    (target = s.current_mode_key → switchMode s target now e1 e2 = s) ∧
    (target ∉ modeKeys → switchMode s target now e1 e2 = s) ∧
    (target ∈ modeKeys → target ≠ s.current_mode_key →
      (switchMode s target now e1 e2).current_mode_key = target ∧
      ({ text := "Switched to " ++ modeLabel target ++ " mode", expires_at := now + 5/2 }
          : OverlayMessage) ∈ (switchMode s target now e1 e2).overlays) ∧
    switchMode s target now e1 e2 = switchMode s target now false false ∧
    (s.current_mode_key ∈ modeKeys →
      (switchMode s target now e1 e2).current_mode_key ∈ modeKeys) := by
  refine ⟨?_, ?_, ?_, rfl, ?_⟩
  · intro h
    rw [switchMode, if_pos h]
  · intro h
    by_cases hc : target = s.current_mode_key
    · rw [switchMode, if_pos hc]
    · rw [switchMode, if_neg hc, if_pos h]
  · intro hmem hne
    rw [switchMode, if_neg hne, if_neg (not_not_intro hmem)]
    dsimp only
    constructor
    · rw [addOverlay]
      dsimp only
      rw [(getMode_preserves _ target).1]
    · rw [addOverlay]
      dsimp only
      rw [(getMode_preserves _ target).2.2]
      exact List.mem_append_right _ (by simp)
  · intro hcur
    by_cases h1 : target = s.current_mode_key
    · rw [switchMode, if_pos h1]
      exact hcur
    by_cases h2 : target ∉ modeKeys
    · rw [switchMode, if_neg h1, if_pos h2]
      exact hcur
    · rw [switchMode, if_neg h1, if_neg h2]
      dsimp only
      rw [addOverlay]
      dsimp only
      rw [(getMode_preserves _ target).1]
      exact not_not.mp h2

theorem c5_witness :
    (switchMode (ctrlInit none) "guardian" 10 true true).current_mode_key = "guardian" ∧
    ({ text := "Switched to " ++ modeLabel "guardian" ++ " mode", expires_at := 10 + 5/2 }
        : OverlayMessage)
      ∈ (switchMode (ctrlInit none) "guardian" 10 true true).overlays :=
  (c5_switch (ctrlInit none) "guardian" 10 true true).2.2.1
    (by with_unfolding_all decide) (by with_unfolding_all decide)

/-- Claim C9. Constructing the controller with an unrecognized initial
mode key (after lower-casing), or with no initial mode, never fails: both
the current and previous mode keys are set to the default "sitting" key,
and they always start equal. -/
theorem c9_init_defaults (o : Option String) :
    ((o.getD "sitting").toLower ∉ modeKeys →
      (ctrlInit o).current_mode_key = "sitting" ∧
      (ctrlInit o).previous_mode_key = "sitting") ∧
    (ctrlInit none).current_mode_key = "sitting" ∧
    (ctrlInit none).previous_mode_key = "sitting" ∧
    (ctrlInit o).previous_mode_key = (ctrlInit o).current_mode_key := by
  refine ⟨?_, by with_unfolding_all decide, by with_unfolding_all decide, ?_⟩
  · intro h
    rw [ctrlInit]
    dsimp only
    rw [if_neg h]
    exact ⟨rfl, rfl⟩
  · rfl

theorem c9_witness :
    (ctrlInit (some "Bogus")).current_mode_key = "sitting" ∧
    (ctrlInit (some "Bogus")).previous_mode_key = "sitting" :=
  (c9_init_defaults (some "Bogus")).1 (by with_unfolding_all decide)

/-- Claim C6. An overlay added at time `t` with duration `d` survives the
active-overlays query for every query time in `[t, t + d)` and is pruned
at every query time at or after `t + d`; the query returns surviving
messages in insertion order (the surviving entries form a sublist of the
store), is idempotent at a fixed instant, and the surviving set only
shrinks as the query time grows. -/
theorem c6_overlay_expiry (s : CtrlState) (text : String) (d t q q' : Time)
    (l : List OverlayMessage) :
    (t ≤ q → q < t + d →
      ({ text := text, expires_at := t + d } : OverlayMessage)
          ∈ activeEntries (addOverlay s text d t).overlays q ∧
      text ∈ activeMessages (addOverlay s text d t).overlays q) ∧
    (t + d ≤ q →
      ({ text := text, expires_at := t + d } : OverlayMessage)
          ∉ activeEntries (addOverlay s text d t).overlays q) ∧
    (activeEntries l q).Sublist l ∧
    activeMessages l q = (activeEntries l q).map OverlayMessage.text ∧
    activeEntries (activeEntries l q) q = activeEntries l q ∧
    (q ≤ q' → (activeEntries l q').Sublist (activeEntries l q)) := by
  refine ⟨?_, ?_, List.filter_sublist l, rfl, ?_, ?_⟩
  · intro _ h2
    have hmem : ({ text := text, expires_at := t + d } : OverlayMessage)
        ∈ activeEntries (addOverlay s text d t).overlays q := by
      rw [activeEntries, List.mem_filter]
      exact ⟨by simp [addOverlay], by simpa using h2⟩
    exact ⟨hmem, List.mem_map.mpr ⟨_, hmem, rfl⟩⟩
  · intro h hmem
    rw [activeEntries, List.mem_filter] at hmem
    have : q < t + d := by simpa using hmem.2
    exact absurd this (not_lt.mpr h)
  · rw [activeEntries, activeEntries, List.filter_filter]
    simp
  · intro hq
    rw [activeEntries, activeEntries]
    refine List.monotone_filter_right l ?_
    intro a ha
    have h1 : q' < a.expires_at := by simpa using ha
    simpa using lt_of_le_of_lt hq h1

theorem c6_witness :
    "hello" ∈ activeMessages (addOverlay (ctrlInit none) "hello" 4 0).overlays 2 :=
  ((c6_overlay_expiry (ctrlInit none) "hello" 4 0 2 3 []).1
    (by norm_num) (by norm_num)).2

theorem processFrameR_failed (s : ReadingState) (i : RFrameInput)
    (hf : s.ocr_failed = true) (ha : s.ocr_available = false) (hd : s.last_text_data = []) :
    (processFrameR s i).1.ocr_failed = true ∧
    (processFrameR s i).1.ocr_available = false ∧
    (processFrameR s i).1.last_text_data = [] ∧
    (processFrameR s i).2.attempted = false ∧
    "OCR engine unavailable - check PaddleOCR install" ∈ (processFrameR s i).2.info := by
  unfold processFrameR ocrPhase ensureOcr gatePhase
  by_cases hrun : (s.frame_count + 1) % (s.skip + 1) = 0 <;>
    simp [hrun, hf, ha, hd]

theorem runReading_failed (inputs : List RFrameInput) :
    ∀ (s : ReadingState), s.ocr_failed = true → s.ocr_available = false →
      s.last_text_data = [] →
      (runReading s inputs).2.map RFrameOut.attempted = inputs.map (fun _ => false) ∧
      ∀ out ∈ (runReading s inputs).2,
        "OCR engine unavailable - check PaddleOCR install" ∈ out.info := by
  induction inputs with
  | nil =>
    intro s _ _ _
    simp [runReading]
  | cons i rest ih =>
    intro s hf ha hd
    have hstep := processFrameR_failed s i hf ha hd
    have hrec := ih (processFrameR s i).1 hstep.1 hstep.2.1 hstep.2.2.1
    simp only [runReading, List.map_cons]
    refine ⟨?_, ?_⟩
    · rw [hstep.2.2.2.1, hrec.1]
    · intro out hout
      rcases List.mem_cons.mp hout with rfl | hout'
      · exact hstep.2.2.2.2
      · exact hrec.2 out hout'

/-- Claim C8. Once the reading mode's OCR engine construction fails, the
failure is cached: `_ensure_ocr` never re-attempts construction, and while
no text data is cached every subsequent `process_frame` call attempts no
construction and reports an "OCR engine unavailable" status line instead
of raising. -/
theorem c8_ocr_failure_cached (s : ReadingState) (ok : Bool) (inputs : List RFrameInput) :
    (s.ocr_failed = true → s.ocr_available = false → ensureOcr s ok = (s, false, false)) ∧
    (s.ocr_available = false → s.ocr_failed = false →
      ensureOcr s false = ({ s with ocr_failed := true }, false, true)) ∧
    (s.ocr_failed = true → s.ocr_available = false → s.last_text_data = [] →
      (runReading s inputs).2.map RFrameOut.attempted = inputs.map (fun _ => false) ∧
      ∀ out ∈ (runReading s inputs).2,
        "OCR engine unavailable - check PaddleOCR install" ∈ out.info) := by
  refine ⟨?_, ?_, ?_⟩
  · intro hf ha
    simp [ensureOcr, hf, ha]
  · intro ha hf
    simp [ensureOcr, ha, hf]
  · intro hf ha hd
    exact runReading_failed inputs s hf ha hd

theorem c8_witness :
    (runReading { readingInit true with ocr_failed := true }
       [{ now := 1, ocr_init_ok := true, ocr_lines := [("X", 1)] }]).2.map RFrameOut.attempted
      = [false] :=
  ((c8_ocr_failure_cached { readingInit true with ocr_failed := true } true
      [{ now := 1, ocr_init_ok := true, ocr_lines := [("X", 1)] }]).2.2 rfl rfl rfl).1

end BlindAid

